import Mathlib

/-!
Verification development for the map subsystem of the rpg-companion-sillytavern
extension.  The JavaScript source under `src/systems/generation/mapPrompts.js`
and `src/systems/ui/mapUI.js` is shallowly embedded below: JS values produced
by `JSON.parse` become the inductive `JVal`, the regex-based extraction and
repair steps of `parseMapJSON`/`repairMapJSON` become total functions on
character lists, and the per-chat map store becomes the record `MapState`.
-/

namespace RpgMap

/-! ## JS value model

`JVal` models a value that `JSON.parse` can return.  Numbers are kept exactly
as mantissa × 10^exponent (decimal literal, no float rounding); object fields
keep insertion order, and a duplicate key overwrites in place, as in JS. -/

inductive JVal where
  | null
  | jbool (b : Bool)
  | num (m : Int) (e : Int)
  | str (s : String)
  | arr (xs : List JVal)
  | obj (fields : List (String × JVal))

/-- JS truthiness of a value: `null`, `false`, `0` and `""` are falsy;
arrays and objects are always truthy. -/
def truthy : JVal → Bool
  | JVal.null => false
  | JVal.jbool b => b
  | JVal.num m _ => m != 0
  | JVal.str s => s != ""
  | JVal.arr _ => true
  | JVal.obj _ => true

/-- JS truthiness of a possibly-undefined value (`none` = `undefined`). -/
def truthyO : Option JVal → Bool
  | none => false
  | some v => truthy v

/-- Field lookup in a JS object (first match; parse-time overwriting keeps keys
unique anyway). -/
def lookupField : List (String × JVal) → String → Option JVal
  | [], _ => none
  | (k', v') :: rest, k => if k' = k then some v' else lookupField rest k

/-- JS property assignment `o[k] = v`: overwrite in place if the key exists
(property order is preserved), else append. -/
def setFieldList : List (String × JVal) → String → JVal → List (String × JVal)
  | [], k, v => [(k, v)]
  | (k', v') :: rest, k, v =>
      if k' = k then (k', v) :: rest else (k', v') :: setFieldList rest k v

/-- Property read `v[k]` for a non-null receiver: only objects have own
properties here; primitives and arrays yield `undefined` (`none`). -/
def getFieldB : JVal → String → Option JVal
  | JVal.obj fields, k => lookupField fields k
  | _, _ => none

/-- Whether the value is the JS `null`. -/
def JVal.isNull : JVal → Bool
  | JVal.null => true
  | _ => false

/-- Whether the value is an object owning a `rooms` array. -/
def hasRoomsArr (v : JVal) : Bool :=
  match getFieldB v "rooms" with
  | some (JVal.arr _) => true
  | _ => false

/-- The `rooms` array of the value, or `[]` when absent. -/
def roomsOf (v : JVal) : List JVal :=
  match getFieldB v "rooms" with
  | some (JVal.arr xs) => xs
  | _ => []

/-- Number of entries in the value's `rooms` array. -/
def roomsCount (v : JVal) : Nat := (roomsOf v).length

/-- Field `k` of the `i`-th room of the value. -/
def roomField (v : JVal) (i : Nat) (k : String) : Option JVal :=
  match (roomsOf v).get? i with
  | some r => getFieldB r k
  | none => none

/-- Whether an optional value is the JS string `s`. -/
def optIsStr (x : Option JVal) (s : String) : Bool :=
  match x with
  | some (JVal.str t) => t == s
  | _ => false

/-- Whether the `j`-th furniture entry of the `i`-th room is a bare string
(rather than a `{name: …}` object). -/
def furnEntryIsBareStr (v : JVal) (i j : Nat) : Bool :=
  match roomField v i "furniture" with
  | some (JVal.arr xs) =>
      match xs.get? j with
      | some (JVal.str _) => true
      | _ => false
  | _ => false

/-! ## JSON.parse model

A total recursive-descent parser for RFC 8259 JSON, structurally recursive on
a fuel counter, mirroring what `JSON.parse` accepts: strict double-quoted
strings with escapes, no trailing commas, no bare keys, no single quotes. -/

def jIsWs (c : Char) : Bool :=
  c.toNat == 32 || c.toNat == 9 || c.toNat == 10 || c.toNat == 13

def skipJWs (cs : List Char) : List Char := cs.dropWhile jIsWs

def isDigitC (c : Char) : Bool := 48 ≤ c.toNat && c.toNat ≤ 57

def takeDigits (cs : List Char) : List Char × List Char :=
  (cs.takeWhile isDigitC, cs.dropWhile isDigitC)

def digitsToNat (ds : List Char) : Nat :=
  ds.foldl (fun a d => 10 * a + (d.toNat - 48)) 0

def hexVal (c : Char) : Option Nat :=
  let n := c.toNat
  if 48 ≤ n && n ≤ 57 then some (n - 48)
  else if 97 ≤ n && n ≤ 102 then some (n - 87)
  else if 65 ≤ n && n ≤ 70 then some (n - 55)
  else none

def escChar (c : Char) : Option Char :=
  match c.toNat with
  | 34 => some c
  | 92 => some c
  | 47 => some c
  | 98 => some (Char.ofNat 8)
  | 102 => some (Char.ofNat 12)
  | 110 => some (Char.ofNat 10)
  | 114 => some (Char.ofNat 13)
  | 116 => some (Char.ofNat 9)
  | _ => none

/-- Body of a JSON string literal, after the opening quote: returns the decoded
characters and the input past the closing quote.  Raw control characters are
rejected, as `JSON.parse` rejects them. -/
def parseJStrAux : Nat → List Char → List Char → Option (List Char × List Char)
  | 0, _, _ => none
  | _ + 1, _, [] => none
  | fuel + 1, acc, c :: cs =>
      if c == '"' then some (acc.reverse, cs)
      else if c == '\\' then
        match cs with
        | [] => none
        | e :: cs2 =>
            if e == 'u' then
              match cs2 with
              | h1 :: h2 :: h3 :: h4 :: cs3 =>
                  match hexVal h1, hexVal h2, hexVal h3, hexVal h4 with
                  | some a, some b, some c4, some d =>
                      parseJStrAux fuel (Char.ofNat (((a * 16 + b) * 16 + c4) * 16 + d) :: acc) cs3
                  | _, _, _, _ => none
              | _ => none
            else
              match escChar e with
              | some ec => parseJStrAux fuel (ec :: acc) cs2
              | none => none
      else if c.toNat < 32 then none
      else parseJStrAux fuel (c :: acc) cs

/-- A JSON number literal: optional minus, integer part without leading zeros,
optional fraction and exponent; value is mantissa × 10^exponent. -/
def parseJNum (cs : List Char) : Option (JVal × List Char) :=
  let (neg, cs1) :=
    match cs with
    | c :: rest => if c == '-' then (true, rest) else (false, cs)
    | [] => (false, cs)
  let (ints, cs2) := takeDigits cs1
  match ints with
  | [] => none
  | d0 :: drest =>
      if d0 == '0' && drest ≠ [] then none
      else
        let (fracs, cs3) :=
          match cs2 with
          | '.' :: rest =>
              let (fs, r) := takeDigits rest
              (fs, r)
          | _ => ([], cs2)
        if cs3.length ≠ cs2.length && fracs = [] then none
        else
          let expPart : Option (Int × List Char) :=
            match cs3 with
            | c :: rest =>
                if c == 'e' || c == 'E' then
                  let (esign, rest1) :=
                    match rest with
                    | s :: r2 =>
                        if s == '-' then ((-1 : Int), r2)
                        else if s == '+' then ((1 : Int), r2)
                        else ((1 : Int), rest)
                    | [] => ((1 : Int), rest)
                  let (es, rest2) := takeDigits rest1
                  match es with
                  | [] => none
                  | _ => some (esign * (digitsToNat es : Int), rest2)
                else some (0, cs3)
            | [] => some (0, cs3)
          match expPart with
          | none => none
          | some (ev, cs4) =>
              let mNat : Nat := digitsToNat (ints ++ fracs)
              let m : Int := if neg then -(mNat : Int) else (mNat : Int)
              some (JVal.num m (ev - (fracs.length : Int)), cs4)

def listPrefixOf : List Char → List Char → Bool
  | [], _ => true
  | _ :: _, [] => false
  | p :: ps, c :: cs => p == c && listPrefixOf ps cs

mutual

def parseJVal : Nat → List Char → Option (JVal × List Char)
  | 0, _ => none
  | fuel + 1, cs0 =>
      let cs := skipJWs cs0
      match cs with
      | [] => none
      | c :: rest =>
          if c == Char.ofNat 123 then parseJObjBody fuel rest
          else if c == '[' then parseJArrBody fuel rest
          else if c == '"' then
            match parseJStrAux fuel [] rest with
            | some (body, r) => some (JVal.str (String.mk body), r)
            | none => none
          else if listPrefixOf ['t', 'r', 'u', 'e'] cs then
            some (JVal.jbool true, cs.drop 4)
          else if listPrefixOf ['f', 'a', 'l', 's', 'e'] cs then
            some (JVal.jbool false, cs.drop 5)
          else if listPrefixOf ['n', 'u', 'l', 'l'] cs then
            some (JVal.null, cs.drop 4)
          else parseJNum cs

def parseJObjBody : Nat → List Char → Option (JVal × List Char)
  | 0, _ => none
  | fuel + 1, cs =>
      match skipJWs cs with
      | c :: rest =>
          if c == Char.ofNat 125 then some (JVal.obj [], rest)
          else parseJMembers fuel [] (c :: rest)
      | [] => none

def parseJMembers : Nat → List (String × JVal) → List Char → Option (JVal × List Char)
  | 0, _, _ => none
  | fuel + 1, acc, cs =>
      match skipJWs cs with
      | '"' :: rest =>
          match parseJStrAux fuel [] rest with
          | some (keyChars, rest2) =>
              match skipJWs rest2 with
              | ':' :: rest3 =>
                  match parseJVal fuel rest3 with
                  | some (v, rest4) =>
                      let acc' := setFieldList acc (String.mk keyChars) v
                      match skipJWs rest4 with
                      | ',' :: rest5 => parseJMembers fuel acc' rest5
                      | c :: rest5 =>
                          if c == Char.ofNat 125 then some (JVal.obj acc', rest5) else none
                      | [] => none
                  | none => none
              | _ => none
          | none => none
      | _ => none

def parseJArrBody : Nat → List Char → Option (JVal × List Char)
  | 0, _ => none
  | fuel + 1, cs =>
      match skipJWs cs with
      | ']' :: rest => some (JVal.arr [], rest)
      | cs1 => parseJElems fuel [] cs1

def parseJElems : Nat → List JVal → List Char → Option (JVal × List Char)
  | 0, _, _ => none
  | fuel + 1, acc, cs =>
      match parseJVal fuel cs with
      | some (v, rest) =>
          match skipJWs rest with
          | ',' :: rest2 => parseJElems fuel (acc ++ [v]) rest2
          | ']' :: rest2 => some (JVal.arr (acc ++ [v]), rest2)
          | _ => none
      | none => none

end

/-- `JSON.parse`: parse one value, then require only whitespace to remain. -/
def jsonParse (s : String) : Option JVal :=
  match parseJVal (4 * s.length + 16) s.data with
  | some (v, rest) => if (skipJWs rest).isEmpty then some v else none
  | none => none

/-! ## Regex models for `parseMapJSON` / `repairMapJSON`

The extraction and repair steps of `mapPrompts.js` are built on JS regexes;
each is modelled as a left-to-right scan with the same matching discipline. -/

/-- The backtick character (0x60). -/
def btChar : Char := Char.ofNat 96

/-- Opening brace `\x7b`. -/
def lbChar : Char := Char.ofNat 123

/-- Closing brace `\x7d`. -/
def rbChar : Char := Char.ofNat 125

/-- Whitespace class of JS regex `\s` and of `String.prototype.trim` (ASCII
part plus NBSP and BOM; the remaining Unicode space points do not occur in
this development's inputs). -/
def jsWsC (c : Char) : Bool :=
  [32, 9, 10, 13, 11, 12, 160, 65279].contains c.toNat

/-- `String.prototype.trim`. -/
def trimList (cs : List Char) : List Char :=
  ((cs.dropWhile jsWsC).reverse.dropWhile jsWsC).reverse

/-- Whether the list starts with three backticks. -/
def fence3 (cs : List Char) : Bool :=
  listPrefixOf [btChar, btChar, btChar] cs

/-- Characters strictly before the first triple-backtick occurrence, or `none`
when there is no such occurrence. -/
def splitAtFence : List Char → Option (List Char)
  | [] => none
  | c :: cs =>
      if fence3 (c :: cs) then some []
      else
        match splitAtFence cs with
        | some inner => some (c :: inner)
        | none => none

/-- Capture group of the first match of ```` /```(?:json)?\s*([\s\S]*?)```/ ````:
at the first opening fence that has a closing fence after it, optionally strip
a literal `json`, then take everything up to the next fence (the leading `\s*`
is not modelled separately because the caller trims the group anyway). -/
def codeFenceGroup : List Char → Option (List Char)
  | [] => none
  | c :: cs =>
      if fence3 (c :: cs) then
        let rest := (c :: cs).drop 3
        let rest1 := if listPrefixOf ['j', 's', 'o', 'n'] rest then rest.drop 4 else rest
        match splitAtFence rest1 with
        | some inner => some inner
        | none => codeFenceGroup cs
      else codeFenceGroup cs

/-- Index of the first occurrence of `c`. -/
def idxOfC (c : Char) : List Char → Option Nat
  | [] => none
  | x :: xs =>
      if x == c then some 0
      else
        match idxOfC c xs with
        | some i => some (i + 1)
        | none => none

/-- Index of the last occurrence of `c`. -/
def lastIdxOfC (c : Char) (cs : List Char) : Option Nat :=
  match idxOfC c cs.reverse with
  | some i => some (cs.length - 1 - i)
  | none => none

/-- The match of greedy `/\{[\s\S]*\}/`: from the first `\x7b` to the last
`\x7d`, provided the latter comes after the former. -/
def braceSpan (cs : List Char) : Option (List Char) :=
  match idxOfC lbChar cs, lastIdxOfC rbChar cs with
  | some i, some j => if i < j then some ((cs.drop i).take (j - i + 1)) else none
  | _, _ => none

/-- Global replace of `/,(\s*[\]\}])/` by `$1`: drop a comma that is followed
(through whitespace) by a closing bracket, continuing the scan after the
bracket, exactly as the regex engine advances `lastIndex`. -/
def stripTrailingCommas : Nat → List Char → List Char
  | 0, cs => cs
  | _ + 1, [] => []
  | fuel + 1, c :: cs =>
      if c == ',' then
        let ws := cs.takeWhile jsWsC
        match cs.drop ws.length with
        | b :: rest2 =>
            if b == ']' || b == rbChar then ws ++ b :: stripTrailingCommas fuel rest2
            else c :: stripTrailingCommas fuel cs
        | [] => c :: stripTrailingCommas fuel cs
      else c :: stripTrailingCommas fuel cs

/-- Word character of JS regex `\w`. -/
def isWordC (c : Char) : Bool :=
  let n := c.toNat
  (97 ≤ n && n ≤ 122) || (65 ≤ n && n ≤ 90) || (48 ≤ n && n ≤ 57) || n == 95

/-- Global replace of `/(\{|\,)\s*(\w+)\s*:/` by `$1"$2":`: after `\x7b` or a
comma, a bare word followed (through whitespace) by a colon is double-quoted;
the whitespace around the word is not part of a group, so it is dropped. -/
def quoteBareKeys : Nat → List Char → List Char
  | 0, cs => cs
  | _ + 1, [] => []
  | fuel + 1, c :: cs =>
      if c == lbChar || c == ',' then
        let ws1 := cs.takeWhile jsWsC
        let r1 := cs.drop ws1.length
        let w := r1.takeWhile isWordC
        let r2 := r1.drop w.length
        let ws2 := r2.takeWhile jsWsC
        match w, r2.drop ws2.length with
        | _ :: _, ':' :: r4 => c :: '"' :: (w ++ '"' :: ':' :: quoteBareKeys fuel r4)
        | _, _ => c :: quoteBareKeys fuel cs
      else c :: quoteBareKeys fuel cs

/-! ## `repairMapJSON` and `parseMapJSON` (src/systems/generation/mapPrompts.js) -/

/-- `repairMapJSON(response)`: drop text before the first `\x7b` and after the
last `\x7d`, remove trailing commas, quote bare object keys. -/
def repairMapJSON (response : String) : String :=
  let cs := response.data
  let j1 :=
    match idxOfC lbChar cs with
    | some i => if i > 0 then cs.drop i else cs
    | none => cs
  let j2 :=
    match lastIdxOfC rbChar j1 with
    | some j => if j + 1 < j1.length then j1.take (j + 1) else j1
    | none => j1
  let j3 := stripTrailingCommas (j2.length + 1) j2
  String.mk (quoteBareKeys (j3.length + 1) j3)

/-- The string handed to the strict `JSON.parse` attempt: the code-fence
capture (trimmed) when a fenced block is present, overridden by the greedy
first-`\x7b`-to-last-`\x7d` span when one exists (the span is matched against
the whole response, after the fence extraction, so it wins). -/
def extractJsonStr (response : String) : String :=
  let cs := response.data
  let s1 :=
    match codeFenceGroup cs with
    | some inner => trimList inner
    | none => cs
  match braceSpan cs with
  | some m => String.mk m
  | none => String.mk s1

/-- `room.id || default`: keep the property when it is present and truthy,
else use the default. -/
def orDefault (x : Option JVal) (d : JVal) : JVal :=
  match x with
  | some v => if truthy v then v else d
  | none => d

/-- Coercion of one entry of `data.rooms` (mapPrompts.js lines 460–470): a new
object with exactly the seven listed fields, falsy fields defaulted.  Reading
`room.id` on a JSON `null` entry throws a `TypeError`, modelled as `error`. -/
def coerceRoom (index : Nat) (room : JVal) : Except Unit JVal :=
  match room with
  | JVal.null => Except.error ()
  | _ =>
      let get := fun k => getFieldB room k
      Except.ok (JVal.obj
        [("id", orDefault (get "id") (JVal.str ("room_" ++ toString index))),
         ("name", orDefault (get "name") (JVal.str ("Room " ++ toString (index + 1)))),
         ("roomType", orDefault (get "roomType") (JVal.str "default")),
         ("description", orDefault (get "description") (JVal.str "")),
         ("position", orDefault (get "position")
            (JVal.obj [("row", JVal.num ((index / 5 : Nat) : Int) 0),
                       ("col", JVal.num ((index % 5 : Nat) : Int) 0)])),
         ("exits", orDefault (get "exits") (JVal.arr [])),
         ("furniture", orDefault (get "furniture") (JVal.arr []))])

/-- `data.rooms.map((room, index) => …)`, threading the index. -/
def coerceRooms (index : Nat) : List JVal → Except Unit (List JVal)
  | [] => Except.ok []
  | r :: rs =>
      match coerceRoom index r, coerceRooms (index + 1) rs with
      | Except.ok r', Except.ok rs' => Except.ok (r' :: rs')
      | Except.error e, _ => Except.error e
      | _, Except.error e => Except.error e

/-- Default layout installed when `data.layout` is falsy. -/
def defaultLayoutJ : JVal :=
  JVal.obj [("gridSize", JVal.obj [("rows", JVal.num 5 0), ("cols", JVal.num 5 0)]),
            ("corridors", JVal.arr [])]

/-- Validation and coercion applied to the strictly parsed value
(mapPrompts.js lines 453–480).  `data.rooms` on the JS `null` throws
(`error`, caught by the surrounding `try`); a missing or non-array `rooms`
returns the JS `null`; otherwise each room is coerced (which itself can
throw) and a falsy `layout` is replaced by the default. -/
def coerceData : JVal → Except Unit JVal
  | JVal.null => Except.error ()
  | JVal.obj fields =>
      match lookupField fields "rooms" with
      | some (JVal.arr rooms) =>
          match coerceRooms 0 rooms with
          | Except.error e => Except.error e
          | Except.ok rooms' =>
              let f1 := setFieldList fields "rooms" (JVal.arr rooms')
              let f2 :=
                if truthyO (lookupField f1 "layout") then f1
                else setFieldList f1 "layout" defaultLayoutJ
              Except.ok (JVal.obj f2)
      | _ => Except.ok JVal.null
  | _ => Except.ok JVal.null

/-- The whole `try` block of `parseMapJSON`: extract, `JSON.parse`, validate
and coerce; any thrown `TypeError`/`SyntaxError` is `error`. -/
def strictParse (response : String) : Except Unit JVal :=
  match jsonParse (extractJsonStr response) with
  | none => Except.error ()
  | some d => coerceData d

/-- `parseMapJSON(response)` (mapPrompts.js lines 433–498): strict attempt;
on an exception, one repair pass whose re-parse result is returned as-is
(no `rooms` validation, no coercion); `null` when everything fails. -/
def parseMapJSON (response : String) : JVal :=
  match strictParse response with
  | Except.ok v => v
  | Except.error _ =>
      let rep := repairMapJSON response
      if rep == "" then JVal.null
      else
        match jsonParse rep with
        | some v => v
        | none => JVal.null

/-! ## Map store model (src/systems/ui/mapUI.js)

The per-chat collection `currentMapData` and the `MapModal` operations on it.
The store is typed with the shapes this module itself writes; the `layout`
payload stays generic (`JVal`) because the UI never inspects it beyond
rendering. -/

/-- A `characterLocations` entry: `{mapId, roomId}`. -/
structure CharLoc where
  mapId : String
  roomId : String

/-- A furniture entry `{name, description}`. -/
structure FurnT where
  name : String
  description : String

/-- A room exit `{direction, destination}`. -/
structure ExitT where
  direction : String
  destination : String

/-- A room of a stored map. -/
structure RoomT where
  id : String
  name : String
  roomType : String
  description : String
  position : Option (Nat × Nat)
  exits : List ExitT
  furniture : List FurnT

/-- A stored map (`MapData` in mapUI.js); `mtype` is its `type` field. -/
structure GameMap where
  id : String
  name : String
  mtype : String
  description : String
  layout : JVal
  rooms : List RoomT
  createdAt : String
  updatedAt : String

/-- The per-chat collection `currentMapData`. -/
structure MapState where
  maps : List GameMap
  activeMapId : Option String
  characterLocations : List (String × CharLoc)

/-- `getActiveMap()`: `null` when `activeMapId` is falsy (absent or the empty
string), else the first map with that id. -/
def getActiveMap (st : MapState) : Option GameMap :=
  match st.activeMapId with
  | none => none
  | some aid => if aid == "" then none else st.maps.find? (fun m => m.id == aid)

/-- `deleteActiveMap()` after the user confirms: remove every map sharing the
active map's id, purge every location entry referencing that id, clear the
active selection.  A no-op when no map is active. -/
def deleteActiveMap (st : MapState) : MapState :=
  match getActiveMap st with
  | none => st
  | some mp =>
      ⟨st.maps.filter (fun x => x.id != mp.id),
       none,
       st.characterLocations.filter (fun e => e.2.mapId != mp.id)⟩

/-- The export file content `{version: 1, exportedAt, map}`. -/
structure Snapshot where
  version : Nat
  exportedAt : String
  map : GameMap

/-- `exportMap()` applied to a given map (the UI picks the active one). -/
def exportMapSnap (m : GameMap) (now : String) : Snapshot := ⟨1, now, m⟩

/-- `importMap()` on an already-parsed snapshot (the JSON file decoding is the
host's): rejected when `data.map.name` is falsy (`data.map` itself is present
by the snapshot type); otherwise the map is spread into a copy with a freshly
generated `id` (`newId`, from clock and randomness — no collision check) and
fresh timestamps, appended, and made active. -/
def importMapSnap (st : MapState) (snap : Snapshot) (newId now : String) : MapState :=
  if snap.map.name == "" then st
  else
    ⟨st.maps ++ [⟨newId, snap.map.name, snap.map.mtype, snap.map.description,
                  snap.map.layout, snap.map.rooms, now, now⟩],
     some newId,
     st.characterLocations⟩

/-- `getCharactersInRoom(roomId)` (mapUI.js lines 417–431), projected to the
names it collects: every tracked actor whose location's `roomId` matches —
the location's `mapId` is not consulted.  (The avatar each entry also carries
is resolved from the host and is out of scope.) -/
def getCharactersInRoom (st : MapState) (roomId : String) : List String :=
  (st.characterLocations.filter (fun e => e.2.roomId == roomId)).map Prod.fst

/-- The `othersHere` loop of `buildLocationContextForInjection`: the other
actors whose entry matches the subject's location on both `mapId` and
`roomId`. -/
def othersHere (locations : List (String × CharLoc)) (characterName : String)
    (charLocation : CharLoc) : List String :=
  (locations.filter (fun e =>
      e.1 != characterName && e.2.mapId == charLocation.mapId &&
        e.2.roomId == charLocation.roomId)).map Prod.fst

/-- `locations[characterName]`. -/
def lookupLoc : List (String × CharLoc) → String → Option CharLoc
  | [], _ => none
  | (n, l) :: rest, k => if n = k then some l else lookupLoc rest k

/-- `Array.prototype.join(', ')`. -/
def joinComma (xs : List String) : String := String.intercalate ", " xs

/-- `buildLocationContextForInjection(mapData, characterName)` (mapPrompts.js
lines 536–602); `depth` is the configured
`mapSettings.locationContextDepth` after its `|| 'current_only'` default. -/
def buildLocationContextForInjection (mapData : MapState) (characterName : String)
    (depth : String) : String :=
  if mapData.maps.isEmpty then ""
  else
    match lookupLoc mapData.characterLocations characterName with
    | none => ""
    | some charLocation =>
        match mapData.maps.find? (fun m => m.id == charLocation.mapId) with
        | none => ""
        | some map =>
            match map.rooms.find? (fun r => r.id == charLocation.roomId) with
            | none => ""
            | some room =>
                let c1 := "[Location: " ++ map.name ++ " - " ++ room.name ++ "]\n" ++
                  room.description ++ "\n"
                let c2 :=
                  if room.furniture.length > 0 then
                    c1 ++ "Present in the room: " ++
                      joinComma (room.furniture.map (fun f => f.name)) ++ ".\n"
                  else c1
                let others := othersHere mapData.characterLocations characterName charLocation
                let c3 :=
                  if others.length > 0 then c2 ++ "Also present: " ++ joinComma others ++ ".\n"
                  else c2
                let c4 :=
                  if (depth == "adjacent_rooms" || depth == "full_building") &&
                      room.exits.length > 0 then
                    c3 ++ "Exits: " ++
                      joinComma (room.exits.map
                        (fun e => e.direction ++ " to " ++ e.destination)) ++ ".\n"
                  else c3
                if depth == "full_building" then
                  let otherRooms := map.rooms.filter (fun r => r.id != room.id)
                  if otherRooms.length > 0 then
                    c4 ++ "Other areas in this location: " ++
                      joinComma (otherRooms.map (fun r => r.name)) ++ ".\n"
                  else c4
                else c4

/-! ## Generation handlers (mapUI.js `regenerateMap`, `regenerateRoomFurniture`)

One invocation of each async handler is embedded as a step function over the
store.  The external pieces are parameters: `response` is what the awaited
`generateQuietPrompt` resolves to (`none` for a falsy result), and the
post-parse layout solving / furniture parsing — whose implementations live in
a revision of `mapPrompts.js` not present here — are the function parameters
`applySolved` and `parseFurn`.  The record also reports whether the external
generate call was reached and whether a warning/error toast was shown. -/

/-- Outcome of one handler invocation. -/
structure GenStep where
  state : MapState
  flagAfter : Bool
  generateCalled : Bool
  warned : Bool

/-- `regenerateMap()` (mapUI.js lines 756–822): bail out with a warning when
no map is active or when `isGenerating` is already set (before the generate
call, state untouched); otherwise generate, parse with `parseMapJSON`, and on
a truthy result with a truthy `rooms` apply the solved layout to the store. -/
def regenerateMapStep (st : MapState) (flag : Bool) (response : Option String)
    (applySolved : MapState → String → MapState) : GenStep :=
  match getActiveMap st with
  | none => ⟨st, flag, false, true⟩
  | some _ =>
      if flag then ⟨st, flag, false, true⟩
      else
        match response with
        | none => ⟨st, false, true, true⟩
        | some r =>
            let parsed := parseMapJSON r
            if truthy parsed && truthyO (getFieldB parsed "rooms") then
              ⟨applySolved st r, false, true, false⟩
            else ⟨st, false, true, true⟩

/-- In-place update of the first room with the given id. -/
def updateFirstRoomF (rid : String) (farr : List FurnT) : List RoomT → List RoomT
  | [] => []
  | r :: rest =>
      if r.id == rid then { r with furniture := farr } :: rest
      else r :: updateFirstRoomF rid farr rest

/-- In-place update of the first map with the given id. -/
def updateFirstMap (mid : String) (f : GameMap → GameMap) : List GameMap → List GameMap
  | [] => []
  | m :: rest => if m.id == mid then f m :: rest else m :: updateFirstMap mid f rest

/-- `regenerateRoomFurniture()` (mapUI.js lines 827–884): resolve the selected
room on the active map first (warning when it does not resolve), then the
`isGenerating` gate, then generate and parse; a non-empty furniture array
replaces the room's furniture and touches the map's `updatedAt`. -/
def regenerateRoomFurnitureStep (st : MapState) (flag : Bool) (selected : Option String)
    (response : Option String) (parseFurn : String → Option (List FurnT))
    (now : String) : GenStep :=
  match getActiveMap st with
  | none => ⟨st, flag, false, true⟩
  | some m =>
      match selected.bind (fun rid => m.rooms.find? (fun r => r.id == rid)) with
      | none => ⟨st, flag, false, true⟩
      | some room =>
          if flag then ⟨st, flag, false, true⟩
          else
            match response with
            | none => ⟨st, false, true, true⟩
            | some resp =>
                match parseFurn resp with
                | some farr =>
                    if farr.length > 0 then
                      ⟨⟨updateFirstMap m.id
                          (fun mp => { mp with
                            rooms := updateFirstRoomF room.id farr mp.rooms,
                            updatedAt := now }) st.maps,
                        st.activeMapId, st.characterLocations⟩,
                       false, true, false⟩
                    else ⟨st, false, true, true⟩
                | none => ⟨st, false, true, true⟩

/-! ## Layout solver

Modelled from the spec: `solveRoomLayout` is imported by mapUI.js from
`mapPrompts.js` but its implementation is not among the source files here, so
it is reconstructed from the specification's §4.3 algorithm, with the
empty-input value fixed by the §8 testable property
(`solveRoomLayout([])` = 5×5 grid, no corridors, no rooms — §4.3's
`max(7, …)` grid formula alone would give 7×7, so the implementation
necessarily special-cases the empty list). -/

/-- A grid position `{row, col}`. -/
structure PosRC where
  row : Nat
  col : Nat

/-- A directional exit produced by the solver. -/
structure ExitDir where
  direction : String
  destination : String

/-- A solver input room: the canonical room list of §4.3 (name, `"WxH"` size,
name-reference exits, furniture names). -/
structure SolverRoomIn where
  name : String
  size : String
  exits : List String
  furniture : List String

/-- A solver output room: input room with an assigned position and exits
translated to compass directions. -/
structure SolverRoomOut where
  name : String
  size : String
  position : PosRC
  exits : List ExitDir
  furniture : List String

/-- `{rows, cols}` of a layout. -/
structure GridSizeT where
  rows : Nat
  cols : Nat

/-- `{gridSize, corridors}`. -/
structure LayoutT where
  gridSize : GridSizeT
  corridors : List PosRC

/-- The solver result `{layout, rooms}`. -/
structure SolveResult where
  layout : LayoutT
  rooms : List SolverRoomOut

/-- ASCII lower-casing (JS `toLowerCase` on the names used here). -/
def lowerStr (s : String) : String := String.mk (s.data.map Char.toLower)

/-- Substring containment. -/
def strContainsSub : List Char → List Char → Bool
  | [], needle => listPrefixOf needle []
  | c :: cs, needle => listPrefixOf needle (c :: cs) || strContainsSub cs needle

/-- Digits-only string to `Nat`. -/
def natFromDigitsAll (s : String) : Option Nat :=
  if s.length > 0 && s.data.all isDigitC then some (digitsToNat s.data) else none

/-- §4.3 step 1: parse `"WxH"`; anything malformed (or with a zero side)
defaults to 2×2. -/
def parseSizeWH (s : String) : Nat × Nat :=
  match s.splitOn "x" with
  | [w, h] =>
      match natFromDigitsAll w, natFromDigitsAll h with
      | some wn, some hn => if 1 ≤ wn && 1 ≤ hn then (wn, hn) else (2, 2)
      | _, _ => (2, 2)
  | _ => (2, 2)

/-- Least `n` with `n * n ≥ k`. -/
def ceilSqrtN (k : Nat) : Nat :=
  let r := Nat.sqrt k
  if k ≤ r * r then r else r + 1

/-- Σ width·height over the parsed sizes. -/
def totalArea (rooms : List SolverRoomIn) : Nat :=
  rooms.foldl (fun a r => a + (parseSizeWH r.size).1 * (parseSizeWH r.size).2) 0

/-- §4.3 step 2: `max(7, ceil(sqrt(1.5 · Σ area)))`; `(3a+1)/2` is the integer
ceiling of `1.5·a`, and `ceil √x = ceil √⌈x⌉` for half-integer `x`. -/
def gridDimension (rooms : List SolverRoomIn) : Nat :=
  max 7 (ceilSqrtN ((3 * totalArea rooms + 1) / 2))

/-- §4.3 step 4: odd columns below `gridDimension - 2`. -/
def slotCols (g : Nat) : List Nat :=
  (List.range g).filter (fun c => c % 2 == 1 && c < g - 2)

/-- §4.3 step 4: for each slot column, one slot above and one below the
corridor row, interleaved. -/
def genSlots (g : Nat) : List PosRC :=
  (slotCols g).flatMap (fun c => [⟨g / 2 - 2, c⟩, ⟨g / 2 + 2, c⟩])

/-- §4.3 step 5: a start-room marker in the name. -/
def isStartName (nm : String) : Bool :=
  let l := (lowerStr nm).data
  strContainsSub l "entrance".data || strContainsSub l "entry".data ||
    strContainsSub l "front".data

/-- §4.3 step 5: index of the start room. -/
def startIdx (rooms : List SolverRoomIn) : Nat :=
  match rooms.findIdx? (fun r => isStartName r.name) with
  | some i => i
  | none => 0

/-- Case-insensitive resolution of an exit name to a room index (first
match). -/
def nameIndexOf (rooms : List SolverRoomIn) (nm : String) : Option Nat :=
  rooms.findIdx? (fun r => lowerStr r.name == lowerStr nm)

/-- §4.3 step 6: breadth-first placement.  Arguments: fuel, queue, visited,
unused slots, placements so far; returns the placements and leftover slots. -/
def bfsPlace (rooms : List SolverRoomIn) :
    Nat → List Nat → List Nat → List PosRC → List (Nat × PosRC) →
    List (Nat × PosRC) × List PosRC
  | 0, _, _, slots, placed => (placed, slots)
  | _ + 1, [], _, slots, placed => (placed, slots)
  | fuel + 1, i :: queue, visited, slots, placed =>
      if visited.contains i then bfsPlace rooms fuel queue visited slots placed
      else
        let visited' := i :: visited
        let (placed', slots') :=
          match slots with
          | [] => (placed, ([] : List PosRC))
          | s :: ss => (placed ++ [(i, s)], ss)
        let nbrs :=
          match rooms.get? i with
          | some r =>
              (r.exits.filterMap (nameIndexOf rooms)).filter
                (fun j => !(visited'.contains j))
          | none => []
        bfsPlace rooms fuel (queue ++ nbrs) visited' slots' placed'

/-- §4.3 step 7: unplaced rooms take the remaining slots in slot order; when
slots run out, `row 0, col = nextIndex mod g` with a running index (the spec
leaves the counter's origin open; it continues from the number of rooms
already placed). -/
def fillLeftovers (g : Nat) : List Nat → List PosRC → Nat → List (Nat × PosRC)
  | [], _, _ => []
  | i :: rest, s :: ss, cnt => (i, s) :: fillLeftovers g rest ss (cnt + 1)
  | i :: rest, [], cnt => (i, ⟨0, cnt % g⟩) :: fillLeftovers g rest [] (cnt + 1)

/-- §4.3 step 8: compass direction from a row/column delta. -/
def dirFor (dr dc : Int) : String :=
  if dr.natAbs > dc.natAbs then (if dr > 0 then "south" else "north")
  else if dc != 0 then (if dc > 0 then "east" else "west")
  else "corridor"

/-- Modelled from the spec: `solveRoomLayout` (§4.3, §8; implementation not in
the provided sources).  Deterministic; the empty input returns the fixed 5×5
empty layout of §8. -/
def solveRoomLayout (roomsIn : List SolverRoomIn) : SolveResult :=
  if roomsIn.isEmpty then ⟨⟨⟨5, 5⟩, []⟩, []⟩
  else
    let g := gridDimension roomsIn
    let corridors := (List.range (g - 2)).map (fun k => (⟨g / 2, k + 1⟩ : PosRC))
    let fuel :=
      (roomsIn.length + 1) * (roomsIn.foldl (fun a r => a + r.exits.length) 0 + 2) +
        roomsIn.length + 2
    let (placed, slotsLeft) := bfsPlace roomsIn fuel [startIdx roomsIn] [] (genSlots g) []
    let placedIdx := placed.map Prod.fst
    let unplaced := (List.range roomsIn.length).filter (fun i => !(placedIdx.contains i))
    let placedAll := placed ++ fillLeftovers g unplaced slotsLeft placed.length
    let posOf := fun (i : Nat) =>
      match placedAll.find? (fun p => p.1 == i) with
      | some p => p.2
      | none => (⟨0, 0⟩ : PosRC)
    let outRooms := (List.range roomsIn.length).filterMap (fun i =>
      match roomsIn.get? i with
      | none => none
      | some r =>
          let p := posOf i
          some (⟨r.name, r.size, p,
                 r.exits.map (fun dest =>
                   match nameIndexOf roomsIn dest with
                   | some j =>
                       let q := posOf j
                       ⟨dirFor ((q.row : Int) - (p.row : Int))
                          ((q.col : Int) - (p.col : Int)), dest⟩
                   | none => ⟨"corridor", dest⟩),
                 r.furniture⟩ : SolverRoomOut))
    ⟨⟨⟨g, g⟩, corridors⟩, outRooms⟩

/-! ## Concrete sample inputs -/

/-- A response whose strict parse fails (bare key) but whose repair pass
re-parses successfully into an object with no `rooms`. -/
def srcBareKey : String := "\x7bfoo: 1\x7d"

/-- The chatter-wrapped generator response of spec §8: fenced block,
single-quoted strings, two unquoted keys, one trailing comma. -/
def srcChatterWrapped : String :=
  "Sure! \x60\x60\x60json\n\x7b\x27rooms\x27:[\x7bname:\x27Hall\x27,\x27size\x27:\x274x4\x27,\x27exits\x27:[\x27Kitchen\x27],furniture:[\x27table\x27],\x7d,\x7b\x27name\x27:\x27Kitchen\x27,\x27size\x27:\x273x3\x27,\x27exits\x27:[\x27Hall\x27],\x27furniture\x27:[]\x7d]\x7d\n\x60\x60\x60"

/-- A strictly valid response whose one room has only a bare-string furniture
list. -/
def srcBareFurniture : String := "\x7b\"rooms\":[\x7b\"furniture\":[\"chair\"]\x7d]\x7d"

/-- A strictly valid response with an empty rooms array. -/
def srcRoomsEmpty : String := "\x7b\"rooms\":[]\x7d"

/-- A strictly valid response with one entirely empty room object. -/
def srcRoomsOne : String := "\x7b\"rooms\":[\x7b\x7d]\x7d"

/-- The fields of the object produced by a successful strict parse. -/
def strictObjFields (s : String) : List (String × JVal) :=
  match strictParse s with
  | Except.ok (JVal.obj f) => f
  | _ => []

/-- A sample room. -/
def sampleRoomA : RoomT := ⟨"r1", "Hall", "entrance", "A hall.", some (0, 0), [], []⟩

/-- A sample location map with id `a`. -/
def sampleMapA : GameMap := ⟨"a", "Tavern", "location", "", JVal.null, [sampleRoomA], "t0", "t0"⟩

/-- A sample regional map with id `b`. -/
def sampleMapB : GameMap := ⟨"b", "Village", "regional", "", JVal.null, [], "t0", "t0"⟩

/-- A sample collection: two maps, map `a` active, one actor on each map. -/
def sampleState : MapState :=
  ⟨[sampleMapA, sampleMapB], some "a", [("Alice", ⟨"a", "r1"⟩), ("Bob", ⟨"b", "r1"⟩)]⟩

/-- The freshly created collection. -/
def emptyState : MapState := ⟨[], none, []⟩

/-- A map whose `name` is the empty string (falsy in JS). -/
def sampleMapNoName : GameMap := ⟨"m0", "", "location", "", JVal.null, [], "t0", "t0"⟩

/-- A map with a non-empty name, used for the round-trip witness. -/
def sampleMapKeep : GameMap := ⟨"old", "Keep", "location", "d", JVal.null, [sampleRoomA], "t0", "t1"⟩

/-! ## Shared lemmas -/

theorem lookup_set_self (l : List (String × JVal)) (k : String) (v : JVal) :
    lookupField (setFieldList l k v) k = some v := by
  induction l with
  | nil => simp [setFieldList, lookupField]
  | cons hd tl ih =>
      obtain ⟨k', v'⟩ := hd
      by_cases h : k' = k
      · simp [setFieldList, lookupField, h]
      · simp [setFieldList, lookupField, h, ih]

theorem lookup_set_ne (l : List (String × JVal)) (k k2 : String) (v : JVal)
    (h : k2 ≠ k) : lookupField (setFieldList l k2 v) k = lookupField l k := by
  induction l with
  | nil => simp [setFieldList, lookupField, h]
  | cons hd tl ih =>
      obtain ⟨k', v'⟩ := hd
      by_cases h2 : k' = k2
      · have hk : ¬k' = k := by rw [h2]; exact h
        simp [setFieldList, lookupField, h2, hk, h]
      · by_cases h3 : k' = k
        · have hk2 : ¬k = k2 := fun he => h he.symm
          simp [setFieldList, lookupField, h2, h3, hk2]
        · simp [setFieldList, lookupField, h2, h3, ih]

theorem coerceData_ok (d v : JVal) (h : coerceData d = Except.ok v) :
    JVal.isNull v = true ∨ hasRoomsArr v = true := by
  cases d with
  | null => simp [coerceData] at h
  | jbool b => simp [coerceData] at h; simp [← h, JVal.isNull]
  | num m e => simp [coerceData] at h; simp [← h, JVal.isNull]
  | str s => simp [coerceData] at h; simp [← h, JVal.isNull]
  | arr xs => simp [coerceData] at h; simp [← h, JVal.isNull]
  | obj fields =>
      cases hl : lookupField fields "rooms" with
      | none =>
          have hd : coerceData (JVal.obj fields) = Except.ok JVal.null := by
            simp [coerceData, hl]
          rw [hd] at h
          cases h
          left
          rfl
      | some rv =>
          cases rv with
          | arr rooms =>
              cases hc : coerceRooms 0 rooms with
              | error e =>
                  have hd : coerceData (JVal.obj fields) = Except.error e := by
                    simp [coerceData, hl, hc]
                  rw [hd] at h
                  cases h
              | ok rooms' =>
                  have hd : coerceData (JVal.obj fields) = Except.ok (JVal.obj
                      (if truthyO (lookupField (setFieldList fields "rooms" (JVal.arr rooms')) "layout") then
                        setFieldList fields "rooms" (JVal.arr rooms')
                      else setFieldList (setFieldList fields "rooms" (JVal.arr rooms')) "layout" defaultLayoutJ)) := by
                    simp [coerceData, hl, hc]
                  rw [hd] at h
                  cases h
                  right
                  have hr :
                      lookupField
                        (if truthyO (lookupField (setFieldList fields "rooms" (JVal.arr rooms')) "layout") then
                          setFieldList fields "rooms" (JVal.arr rooms')
                        else setFieldList (setFieldList fields "rooms" (JVal.arr rooms')) "layout" defaultLayoutJ)
                        "rooms" = some (JVal.arr rooms') := by
                    split
                    · exact lookup_set_self fields "rooms" (JVal.arr rooms')
                    · rw [lookup_set_ne _ _ _ _ (by decide)]
                      exact lookup_set_self fields "rooms" (JVal.arr rooms')
                  simp [hasRoomsArr, getFieldB, hr]
          | null =>
              have hd : coerceData (JVal.obj fields) = Except.ok JVal.null := by
                simp [coerceData, hl]
              rw [hd] at h
              cases h
              left
              rfl
          | jbool b =>
              have hd : coerceData (JVal.obj fields) = Except.ok JVal.null := by
                simp [coerceData, hl]
              rw [hd] at h
              cases h
              left
              rfl
          | num m e =>
              have hd : coerceData (JVal.obj fields) = Except.ok JVal.null := by
                simp [coerceData, hl]
              rw [hd] at h
              cases h
              left
              rfl
          | str s =>
              have hd : coerceData (JVal.obj fields) = Except.ok JVal.null := by
                simp [coerceData, hl]
              rw [hd] at h
              cases h
              left
              rfl
          | obj fs2 =>
              have hd : coerceData (JVal.obj fields) = Except.ok JVal.null := by
                simp [coerceData, hl]
              rw [hd] at h
              cases h
              left
              rfl

theorem coerceRoom_ok_idpos (i : Nat) (room out : JVal)
    (h : coerceRoom i room = Except.ok out) :
    (getFieldB out "id").isSome = true ∧ (getFieldB out "position").isSome = true := by
  cases room with
  | null => simp [coerceRoom] at h
  | jbool b => simp [coerceRoom] at h; subst h; exact ⟨rfl, rfl⟩
  | num m e => simp [coerceRoom] at h; subst h; exact ⟨rfl, rfl⟩
  | str s => simp [coerceRoom] at h; subst h; exact ⟨rfl, rfl⟩
  | arr xs => simp [coerceRoom] at h; subst h; exact ⟨rfl, rfl⟩
  | obj fs => simp [coerceRoom] at h; subst h; exact ⟨rfl, rfl⟩

theorem coerceRooms_ok_mem (rs : List JVal) :
    ∀ (idx : Nat) (rs' : List JVal), coerceRooms idx rs = Except.ok rs' →
    ∀ r ∈ rs', (getFieldB r "id").isSome = true ∧ (getFieldB r "position").isSome = true := by
  induction rs with
  | nil =>
      intro idx rs' h r hr
      simp [coerceRooms] at h
      subst h
      cases hr
  | cons hd tl ih =>
      intro idx rs' h r hr
      unfold coerceRooms at h
      split at h
      · rename_i r' rs2 heq1 heq2
        simp only [Except.ok.injEq] at h
        subst h
        cases hr with
        | head => exact coerceRoom_ok_idpos idx hd r heq1
        | tail _ htail => exact ih (idx + 1) rs2 heq2 r htail
      · exact absurd h (by simp)
      · exact absurd h (by simp)

/-! ## Claim theorems -/

set_option maxRecDepth 4096

/-- C1 counterexample: on the input `\x7bfoo: 1\x7d` the strict parse throws
(bare key), the repair pass quotes the key, and `parseMapJSON` returns the
re-parsed object as-is — a non-null value with no `rooms` array, so the claim
that the caller never receives an object lacking `rooms` (on the repair path
too) is false. -/
theorem c1_counterexample :
    JVal.isNull (parseMapJSON srcBareKey) = false ∧
      hasRoomsArr (parseMapJSON srcBareKey) = false := by
  constructor
  · rfl
  · rfl

/-- C1 (amended): the `rooms`-array guarantee holds on the strict-parse path
only — whenever the `try` block of `parseMapJSON` completes, its value is the
JS `null` or an object owning a `rooms` array; the repair path returns the
re-parsed value without this validation. -/
theorem c1_amended_thm (s : String) (v : JVal) (h : strictParse s = Except.ok v) :
    JVal.isNull v = true ∨ hasRoomsArr v = true := by
  unfold strictParse at h
  cases hp : jsonParse (extractJsonStr s) with
  | none => rw [hp] at h; cases h
  | some d => rw [hp] at h; exact coerceData_ok d v h

/-- C1 witness: on `\x7b"rooms":[]\x7d` the strict parse succeeds and the
amended theorem applies. -/
theorem c1_witness :
    JVal.isNull (parseMapJSON srcRoomsEmpty) = true ∨
      hasRoomsArr (parseMapJSON srcRoomsEmpty) = true :=
  c1_amended_thm srcRoomsEmpty (parseMapJSON srcRoomsEmpty) (by rfl)

/-- C2 counterexample: on the chatter-wrapped example of spec §8,
`parseMapJSON` does not return a two-room object — neither pass normalizes
the single quotes, so both `JSON.parse` attempts throw and the result is
`null`. -/
theorem c2_counterexample :
    ¬(JVal.isNull (parseMapJSON srcChatterWrapped) = false ∧
        roomsCount (parseMapJSON srcChatterWrapped) = 2) := by
  intro hcl
  exact Bool.noConfusion hcl.1

/-- C2 (amended): for the section-8 chatter-wrapped example input,
`parseMapJSON` returns `null`: no stage of the pipeline converts single
quotes to double quotes, so the strict parse and the repaired re-parse both
fail. -/
theorem c2_amended_thm : JVal.isNull (parseMapJSON srcChatterWrapped) = true := by
  rfl

/-- C3 counterexample: on `\x7b"rooms":[\x7b"furniture":["chair"]\x7d]\x7d`
`parseMapJSON` succeeds with a rooms array, yet the room's `size` is not the
claimed `"3x3"` default (no `size` is ever produced) and its bare-string
furniture entry `"chair"` stays a bare string instead of being wrapped as
`\x7bname: …\x7d`. -/
theorem c3_counterexample :
    hasRoomsArr (parseMapJSON srcBareFurniture) = true ∧
      optIsStr (roomField (parseMapJSON srcBareFurniture) 0 "size") "3x3" = false ∧
      furnEntryIsBareStr (parseMapJSON srcBareFurniture) 0 0 = true := by
  exact ⟨rfl, rfl, rfl⟩

/-- C3 (amended): the coercion applies on the strict-parse path only, and per
room it: defaults a missing `name` to `"Room <1-based index>"`, produces no
`size` field at all (even a provided one is dropped — there is no `"3x3"`
default), keeps a provided `furniture` array verbatim (bare strings are not
wrapped), keeps any truthy `exits` value as-is (only falsy ones become `[]`),
and throws on a JSON-`null` room entry (diverting `parseMapJSON` to the
repair path, which performs no coercion). -/
theorem c3_amended_thm :
    (∀ (i : Nat) (fields : List (String × JVal)),
      ∃ out, coerceRoom i (JVal.obj fields) = Except.ok out ∧
        (lookupField fields "name" = none →
          getFieldB out "name" = some (JVal.str ("Room " ++ toString (i + 1)))) ∧
        getFieldB out "size" = none ∧
        (∀ xs, lookupField fields "furniture" = some (JVal.arr xs) →
          getFieldB out "furniture" = some (JVal.arr xs)) ∧
        (∀ v, lookupField fields "exits" = some v → truthy v = true →
          getFieldB out "exits" = some v)) ∧
      coerceRoom 0 JVal.null = Except.error () := by
  constructor
  · intro i fields
    refine ⟨_, rfl, ?_, ?_, ?_, ?_⟩
    · intro h
      simp [getFieldB, lookupField, orDefault, h]
    · rfl
    · intro xs h
      simp [getFieldB, lookupField, orDefault, h, truthy]
    · intro v h hv
      simp [getFieldB, lookupField, orDefault, h, hv]
  · rfl

/-- C3 witness: a concrete room with only a bare-string furniture list: the
coercion succeeds, the name is defaulted, no size appears, and the furniture
array is kept verbatim. -/
theorem c3_witness :
    ∃ out, coerceRoom 0 (JVal.obj [("furniture", JVal.arr [JVal.str "chair"])]) =
        Except.ok out ∧
      getFieldB out "name" = some (JVal.str "Room 1") ∧
      getFieldB out "size" = none ∧
      getFieldB out "furniture" = some (JVal.arr [JVal.str "chair"]) := by
  obtain ⟨out, h1, hn, hs, hf, he⟩ :=
    c3_amended_thm.1 0 [("furniture", JVal.arr [JVal.str "chair"])]
  exact ⟨out, h1, hn rfl, hs, hf [JVal.str "chair"] rfl⟩

/-- C8: the layout solver on the empty room list returns exactly the 5×5 grid
with no corridors and no rooms. -/
theorem c8_thm : solveRoomLayout [] = ⟨⟨⟨5, 5⟩, []⟩, []⟩ := by
  rfl

/-- C9: whenever `parseMapJSON` succeeds through the strict-parse path with an
object, every room of its `rooms` array already carries an `id` and a
`position`; and a room that omitted them receives `"room_<0-based index>"`
and `\x7brow: ⌊index/5⌋, col: index mod 5\x7d`. -/
theorem c9_thm :
    (∀ (s : String) (fields : List (String × JVal)),
      strictParse s = Except.ok (JVal.obj fields) →
      ∃ rooms', lookupField fields "rooms" = some (JVal.arr rooms') ∧
        ∀ r ∈ rooms',
          (getFieldB r "id").isSome = true ∧ (getFieldB r "position").isSome = true) ∧
    (∀ (i : Nat) (fields : List (String × JVal)),
      lookupField fields "id" = none → lookupField fields "position" = none →
      ∃ out, coerceRoom i (JVal.obj fields) = Except.ok out ∧
        getFieldB out "id" = some (JVal.str ("room_" ++ toString i)) ∧
        getFieldB out "position" = some (JVal.obj
          [("row", JVal.num ((i / 5 : Nat) : Int) 0),
           ("col", JVal.num ((i % 5 : Nat) : Int) 0)])) := by
  constructor
  · intro s fields h
    unfold strictParse at h
    cases hp : jsonParse (extractJsonStr s) with
    | none => rw [hp] at h; cases h
    | some d =>
        rw [hp] at h
        cases d with
        | null => simp [coerceData] at h
        | jbool b => simp [coerceData] at h
        | num m e => simp [coerceData] at h
        | str s2 => simp [coerceData] at h
        | arr xs => simp [coerceData] at h
        | obj fs =>
            have h' : coerceData (JVal.obj fs) = Except.ok (JVal.obj fields) := h
            cases hl : lookupField fs "rooms" with
            | none =>
                have hd : coerceData (JVal.obj fs) = Except.ok JVal.null := by
                  simp [coerceData, hl]
                rw [hd] at h'
                cases h'
            | some rv =>
                cases rv with
                | arr rooms =>
                    cases hc : coerceRooms 0 rooms with
                    | error e =>
                        have hd : coerceData (JVal.obj fs) = Except.error e := by
                          simp [coerceData, hl, hc]
                        rw [hd] at h'
                        cases h'
                    | ok rooms' =>
                        have hd : coerceData (JVal.obj fs) = Except.ok (JVal.obj
                            (if truthyO (lookupField (setFieldList fs "rooms" (JVal.arr rooms')) "layout") then
                              setFieldList fs "rooms" (JVal.arr rooms')
                            else setFieldList (setFieldList fs "rooms" (JVal.arr rooms')) "layout" defaultLayoutJ)) := by
                          simp [coerceData, hl, hc]
                        rw [hd] at h'
                        cases h'
                        refine ⟨rooms', ?_, coerceRooms_ok_mem rooms 0 rooms' hc⟩
                        split
                        · exact lookup_set_self fs "rooms" (JVal.arr rooms')
                        · rw [lookup_set_ne _ _ _ _ (by decide)]
                          exact lookup_set_self fs "rooms" (JVal.arr rooms')
                | null =>
                    have hd : coerceData (JVal.obj fs) = Except.ok JVal.null := by
                      simp [coerceData, hl]
                    rw [hd] at h'
                    cases h'
                | jbool b =>
                    have hd : coerceData (JVal.obj fs) = Except.ok JVal.null := by
                      simp [coerceData, hl]
                    rw [hd] at h'
                    cases h'
                | num m e =>
                    have hd : coerceData (JVal.obj fs) = Except.ok JVal.null := by
                      simp [coerceData, hl]
                    rw [hd] at h'
                    cases h'
                | str s2 =>
                    have hd : coerceData (JVal.obj fs) = Except.ok JVal.null := by
                      simp [coerceData, hl]
                    rw [hd] at h'
                    cases h'
                | obj fs2 =>
                    have hd : coerceData (JVal.obj fs) = Except.ok JVal.null := by
                      simp [coerceData, hl]
                    rw [hd] at h'
                    cases h'
  · intro i fields hid hpos
    refine ⟨_, rfl, ?_, ?_⟩
    · simp [getFieldB, lookupField, orDefault, hid]
    · simp [getFieldB, lookupField, orDefault, hpos]

/-- C9 witness: on `\x7b"rooms":[\x7b\x7d]\x7d` the strict parse succeeds and
every room of the result carries an id and a position. -/
theorem c9_witness :
    ∃ rooms', lookupField (strictObjFields srcRoomsOne) "rooms" = some (JVal.arr rooms') ∧
      ∀ r ∈ rooms',
        (getFieldB r "id").isSome = true ∧ (getFieldB r "position").isSome = true :=
  c9_thm.1 srcRoomsOne (strictObjFields srcRoomsOne) (by rfl)

/-- C4 counterexample: a map whose name is the empty string defeats the round
trip — `importMap` rejects the snapshot (`!data.map.name`), so nothing is
appended and nothing becomes active, against the claim's "for every Map m". -/
theorem c4_counterexample :
    (importMapSnap emptyState (exportMapSnap sampleMapNoName "t1") "fresh" "t2").maps.length = 0 ∧
      (importMapSnap emptyState (exportMapSnap sampleMapNoName "t1") "fresh" "t2").activeMapId =
        none := by
  exact ⟨rfl, rfl⟩

/-- C4 (amended): for every map `m` with a non-empty (truthy) `name`, and a
freshly generated id that does not happen to collide with an existing map's
id (generation is clock+randomness; the code performs no collision check),
importing the export of `m` appends a map with identical `name`, `type`,
`layout`, `rooms` (and `description`), carrying the new id, and makes it the
active map, leaving character locations untouched. -/
theorem c4_amended_thm (st : MapState) (m : GameMap) (nowE nowI newId : String)
    (h1 : m.name ≠ "") (h2 : ∀ m' ∈ st.maps, m'.id ≠ newId) :
    ∃ im : GameMap,
      (importMapSnap st (exportMapSnap m nowE) newId nowI).maps = st.maps ++ [im] ∧
      im.name = m.name ∧ im.mtype = m.mtype ∧ im.layout = m.layout ∧
      im.rooms = m.rooms ∧ im.description = m.description ∧ im.id = newId ∧
      (∀ m' ∈ st.maps, m'.id ≠ im.id) ∧
      (importMapSnap st (exportMapSnap m nowE) newId nowI).activeMapId = some newId ∧
      (importMapSnap st (exportMapSnap m nowE) newId nowI).characterLocations =
        st.characterLocations := by
  have hb : (m.name == "") = false := by
    simp [h1]
  refine ⟨⟨newId, m.name, m.mtype, m.description, m.layout, m.rooms, nowI, nowI⟩,
    ?_, rfl, rfl, rfl, rfl, rfl, rfl, h2, ?_, ?_⟩ <;>
    simp [importMapSnap, exportMapSnap, hb]

/-- C4 witness: exporting and importing the sample map `Keep` into the empty
collection appends it under the fresh id and activates it. -/
theorem c4_witness :
    ∃ im : GameMap,
      (importMapSnap emptyState (exportMapSnap sampleMapKeep "t2") "m_fresh" "t3").maps =
        emptyState.maps ++ [im] ∧
      im.name = sampleMapKeep.name ∧ im.mtype = sampleMapKeep.mtype ∧
      im.layout = sampleMapKeep.layout ∧ im.rooms = sampleMapKeep.rooms ∧
      im.description = sampleMapKeep.description ∧ im.id = "m_fresh" ∧
      (∀ m' ∈ emptyState.maps, m'.id ≠ im.id) ∧
      (importMapSnap emptyState (exportMapSnap sampleMapKeep "t2") "m_fresh" "t3").activeMapId =
        some "m_fresh" ∧
      (importMapSnap emptyState (exportMapSnap sampleMapKeep "t2") "m_fresh" "t3").characterLocations =
        emptyState.characterLocations :=
  c4_amended_thm emptyState sampleMapKeep "t2" "t3" "m_fresh" (by decide)
    (by intro m' hm'; simp [emptyState] at hm')

/-- C5: deleting the active map `m` (over a collection whose map ids identify
maps uniquely) removes `m` from the maps sequence and exactly the character
locations whose `mapId` references it; every other map and every location
entry pointing elsewhere — including dangling ones — survives. -/
theorem c5_thm (st : MapState) (m : GameMap) (hactive : getActiveMap st = some m)
    (huniq : ∀ m' ∈ st.maps, m'.id = m.id → m' = m) :
    m ∉ (deleteActiveMap st).maps ∧
    (∀ m' ∈ st.maps, m' ≠ m → m' ∈ (deleteActiveMap st).maps) ∧
    (∀ m' ∈ (deleteActiveMap st).maps, m' ∈ st.maps) ∧
    (∀ (n : String) (loc : CharLoc),
      (n, loc) ∈ (deleteActiveMap st).characterLocations ↔
        ((n, loc) ∈ st.characterLocations ∧ loc.mapId ≠ m.id)) := by
  have hdel : deleteActiveMap st =
      ⟨st.maps.filter (fun x => x.id != m.id), none,
       st.characterLocations.filter (fun e => e.2.mapId != m.id)⟩ := by
    unfold deleteActiveMap
    rw [hactive]
  rw [hdel]
  refine ⟨?_, ?_, ?_, ?_⟩
  · intro hmem
    have h2 := (List.mem_filter.mp hmem).2
    simp at h2
  · intro m' hm' hne
    refine List.mem_filter.mpr ⟨hm', ?_⟩
    have hid : m'.id ≠ m.id := fun he => hne (huniq m' hm' he)
    simpa using hid
  · intro m' hm'
    exact (List.mem_filter.mp hm').1
  · intro n loc
    constructor
    · intro hmem
      have h1 := List.mem_filter.mp hmem
      refine ⟨h1.1, ?_⟩
      have h2 := h1.2
      simpa using h2
    · rintro ⟨hmem, hne⟩
      exact List.mem_filter.mpr ⟨hmem, by simpa using hne⟩

/-- C5 witness: deleting the active map `a` of the sample collection removes
it (the theorem's other conjuncts then pin down everything else). -/
theorem c5_witness : sampleMapA ∉ (deleteActiveMap sampleState).maps :=
  (c5_thm sampleState sampleMapA rfl
    (by
      intro m' hm' hid
      simp [sampleState] at hm'
      rcases hm' with h | h
      · exact h
      · subst h
        exact absurd hid (by decide))).1

/-- C6: a generation request that arrives while `isGenerating` is set — map
regeneration or furniture regeneration — is rejected with a user-visible
warning before the external generate call is reached, and the collection is
returned unchanged with the flag still held by the outstanding operation. -/
theorem c6_thm (st : MapState) (response : Option String)
    (applySolved : MapState → String → MapState) (selected : Option String)
    (parseFurn : String → Option (List FurnT)) (now : String) :
    regenerateMapStep st true response applySolved =
      ⟨st, true, false, true⟩ ∧
    regenerateRoomFurnitureStep st true selected response parseFurn now =
      ⟨st, true, false, true⟩ := by
  constructor
  · cases hA : getActiveMap st with
    | none => simp [regenerateMapStep, hA]
    | some m => simp [regenerateMapStep, hA]
  · cases hA : getActiveMap st with
    | none => simp [regenerateRoomFurnitureStep, hA]
    | some m =>
        cases hB : selected.bind (fun rid => m.rooms.find? (fun r => r.id == rid)) with
        | none => simp [regenerateRoomFurnitureStep, hA, hB]
        | some room => simp [regenerateRoomFurnitureStep, hA, hB]

/-- C7: the location-context builder returns the empty string in every
unresolved case — no maps, no location entry for the actor, a `mapId` naming
no map, or a `roomId` naming no room of that map; the embedding is a total
function, so no input state raises. -/
theorem c7_thm (st : MapState) (cname depth : String) :
    (st.maps = [] → buildLocationContextForInjection st cname depth = "") ∧
    (lookupLoc st.characterLocations cname = none →
      buildLocationContextForInjection st cname depth = "") ∧
    (∀ loc, lookupLoc st.characterLocations cname = some loc →
      st.maps.find? (fun mp => mp.id == loc.mapId) = none →
      buildLocationContextForInjection st cname depth = "") ∧
    (∀ loc mp, lookupLoc st.characterLocations cname = some loc →
      st.maps.find? (fun mp2 => mp2.id == loc.mapId) = some mp →
      mp.rooms.find? (fun r => r.id == loc.roomId) = none →
      buildLocationContextForInjection st cname depth = "") := by
  refine ⟨?_, ?_, ?_, ?_⟩
  · intro h
    simp [buildLocationContextForInjection, h]
  · intro h
    by_cases he : st.maps.isEmpty = true
    · simp [buildLocationContextForInjection, he]
    · simp [buildLocationContextForInjection, he, h]
  · intro loc h1 h2
    by_cases he : st.maps.isEmpty = true
    · simp [buildLocationContextForInjection, he]
    · simp [buildLocationContextForInjection, he, h1, h2]
  · intro loc mp h1 h2 h3
    by_cases he : st.maps.isEmpty = true
    · simp [buildLocationContextForInjection, he]
    · simp [buildLocationContextForInjection, he, h1, h2, h3]

/-- C7 witness: the empty collection yields the empty context string. -/
theorem c7_witness :
    buildLocationContextForInjection emptyState "Alice" "current_only" = "" :=
  (c7_thm emptyState "Alice" "current_only").1 rfl

/-- C10: `getCharactersInRoom` collects exactly the actors whose location has
the matching `roomId`, ignoring `mapId` entirely (an actor on a different map
whose room shares the id is included), whereas the `othersHere` co-location
list built for prompt injection requires both `mapId` and `roomId` to match
the subject's location. -/
theorem c10_thm :
    (∀ (st : MapState) (roomId n : String),
      n ∈ getCharactersInRoom st roomId ↔
        ∃ loc, (n, loc) ∈ st.characterLocations ∧ loc.roomId = roomId) ∧
    (∀ (locations : List (String × CharLoc)) (cname : String) (cloc : CharLoc) (n : String),
      n ∈ othersHere locations cname cloc ↔
        (n ≠ cname ∧ ∃ loc, (n, loc) ∈ locations ∧ loc.mapId = cloc.mapId ∧
          loc.roomId = cloc.roomId)) := by
  constructor
  · intro st roomId n
    constructor
    · intro hmem
      obtain ⟨e, he, hfst⟩ := List.mem_map.mp hmem
      obtain ⟨a, loc⟩ := e
      obtain ⟨hin, hp⟩ := List.mem_filter.mp he
      cases hfst
      exact ⟨loc, hin, by simpa using hp⟩
    · rintro ⟨loc, hin, hr⟩
      exact List.mem_map.mpr ⟨(n, loc), List.mem_filter.mpr ⟨hin, by simpa using hr⟩, rfl⟩
  · intro locations cname cloc n
    constructor
    · intro hmem
      obtain ⟨e, he, hfst⟩ := List.mem_map.mp hmem
      obtain ⟨a, loc⟩ := e
      obtain ⟨hin, hp⟩ := List.mem_filter.mp he
      cases hfst
      simp only [Bool.and_eq_true, bne_iff_ne, beq_iff_eq] at hp
      exact ⟨hp.1.1, loc, hin, hp.1.2, hp.2⟩
    · rintro ⟨hne, loc, hin, hm, hr⟩
      refine List.mem_map.mpr ⟨(n, loc), List.mem_filter.mpr ⟨hin, ?_⟩, rfl⟩
      simp only [Bool.and_eq_true, bne_iff_ne, beq_iff_eq]
      exact ⟨⟨hne, hm⟩, hr⟩

end RpgMap
